import Mathlib

/-!
Verification of the SecureChat client core (core.js and services.js):
the crypto engine (encrypt, decrypt, gibberish placeholder, passkey
lockout, strength meter), the reactive store reset, the realtime sync
message handlers, and the connectivity manager (offline queue flush and
reconnection backoff).

The JavaScript is shallowly embedded: JS objects used as string-keyed
maps become association lists, machine time stamps become Nat, byte
buffers become lists of Nat below 256, and thrown exceptions become
Option.none results.  Platform primitives that the repository calls but
does not define (WebCrypto PBKDF2 and AES-GCM, TextEncoder) are
modelled from the spec and marked as such in their doc comments.
-/

namespace SecureChat

/-! ## Association-list model of plain JS objects used as maps -/

/-- Lookup of a key in a JS object modelled as an association list. -/
def mapLookup {α : Type} (k : String) : List (String × α) → Option α
  | [] => none
  | (k', v) :: rest => if k' = k then some v else mapLookup k rest

/-- JS object assignment obj[k] = v: replace in place, else append. -/
def mapSet {α : Type} (k : String) (v : α) : List (String × α) → List (String × α)
  | [] => [(k, v)]
  | (k', v') :: rest => if k' = k then (k, v) :: rest else (k', v') :: mapSet k v rest

/-- JS delete obj[k]: remove the entry with key k. -/
def mapDelete {α : Type} (k : String) : List (String × α) → List (String × α)
  | [] => []
  | (k', v') :: rest => if k' = k then rest else (k', v') :: mapDelete k rest

theorem mapLookup_set_self {α : Type} (k : String) (v : α) (m : List (String × α)) :
    mapLookup k (mapSet k v m) = some v := by
  induction m with
  | nil => simp [mapSet, mapLookup]
  | cons hd tl ih =>
    obtain ⟨k', v'⟩ := hd
    by_cases h : k' = k <;> simp [mapSet, mapLookup, h, ih]

theorem mapSet_mapSet {α : Type} (k : String) (v w : α) (m : List (String × α)) :
    mapSet k v (mapSet k w m) = mapSet k v m := by
  induction m with
  | nil => simp [mapSet]
  | cons hd tl ih =>
    obtain ⟨k', v'⟩ := hd
    by_cases h : k' = k <;> simp [mapSet, h, ih]

theorem mapDelete_set_of_lookup_none {α : Type} (k : String) (v : α)
    (m : List (String × α)) (h : mapLookup k m = none) :
    mapDelete k (mapSet k v m) = m := by
  induction m with
  | nil => simp [mapSet, mapDelete]
  | cons hd tl ih =>
    obtain ⟨k', v'⟩ := hd
    by_cases hk : k' = k
    · simp [mapLookup, hk] at h
    · simp [mapLookup, hk] at h
      simp [mapSet, mapDelete, hk, ih h]

/-! ## Base64 (CryptoEngine.bufferToBase64 / base64ToBuffer)

bufferToBase64 turns a byte buffer into a binary string and applies
btoa; base64ToBuffer applies atob and reads the char codes.  We model
the composition directly on byte lists.  atob follows forgiving-base64:
padding is only legal as the final one or two characters of a 4-aligned
input, any other character outside the alphabet is an error, and an
error is a thrown exception, modelled as none.  (Stripping of ASCII
whitespace is omitted: every base64 string in this program is
machine-generated and whitespace-free.) -/

/-- The standard base64 alphabet character for a 6-bit value, as produced
by btoa. -/
def b64Char (v : Nat) : Char :=
  if v < 26 then Char.ofNat (65 + v)
  else if v < 52 then Char.ofNat (97 + (v - 26))
  else if v < 62 then Char.ofNat (48 + (v - 52))
  else if v = 62 then '+' else '/'

/-- The 6-bit value of a base64 alphabet character; none when the
character is outside the alphabet (atob raises InvalidCharacterError). -/
def b64Val (c : Char) : Option Nat :=
  if 65 ≤ c.toNat ∧ c.toNat ≤ 90 then some (c.toNat - 65)
  else if 97 ≤ c.toNat ∧ c.toNat ≤ 122 then some (c.toNat - 97 + 26)
  else if 48 ≤ c.toNat ∧ c.toNat ≤ 57 then some (c.toNat - 48 + 52)
  else if c = '+' then some 62
  else if c = '/' then some 63
  else none

/-- Base64 encoding of a byte list in 3-byte groups with padding,
exactly as btoa produces it. -/
def b64EncodeGroups : List Nat → List Char
  | [] => []
  | [a] => [b64Char (a / 4), b64Char (a % 4 * 16), '=', '=']
  | [a, b] => [b64Char (a / 4), b64Char (a % 4 * 16 + b / 16), b64Char (b % 16 * 4), '=']
  | a :: b :: c :: rest =>
      b64Char (a / 4) :: b64Char (a % 4 * 16 + b / 16) :: b64Char (b % 16 * 4 + c / 64) ::
        b64Char (c % 64) :: b64EncodeGroups rest

example : b64EncodeGroups [77, 97, 110] = ['T', 'W', 'F', 'u'] := by decide

/-- CryptoEngine.bufferToBase64: byte buffer to base64 string. -/
def bufferToBase64 (bytes : List Nat) : String :=
  String.mk (b64EncodeGroups bytes)

/-- Base64 decoding in 4-character groups.  The final group may carry
one or two padding characters; padding anywhere else, a character
outside the alphabet, or a leftover single character is an error. -/
def b64DecodeGroups : List Char → Option (List Nat)
  | [] => some []
  | [a, b] => do
      let va ← b64Val a
      let vb ← b64Val b
      some [va * 4 + vb / 16]
  | [a, b, c] => do
      let va ← b64Val a
      let vb ← b64Val b
      let vc ← b64Val c
      some [va * 4 + vb / 16, vb % 16 * 16 + vc / 4]
  | a :: b :: c :: d :: rest =>
      if rest.isEmpty ∧ c = '=' ∧ d = '=' then do
        let va ← b64Val a
        let vb ← b64Val b
        some [va * 4 + vb / 16]
      else if rest.isEmpty ∧ d = '=' then do
        let va ← b64Val a
        let vb ← b64Val b
        let vc ← b64Val c
        some [va * 4 + vb / 16, vb % 16 * 16 + vc / 4]
      else do
        let va ← b64Val a
        let vb ← b64Val b
        let vc ← b64Val c
        let vd ← b64Val d
        let tl ← b64DecodeGroups rest
        some ((va * 4 + vb / 16) :: (vb % 16 * 16 + vc / 4) :: (vc % 4 * 64 + vd) :: tl)
  | [_] => none

/-- CryptoEngine.base64ToBuffer: base64 string to byte buffer; none
models the InvalidCharacterError thrown by atob. -/
def base64ToBuffer (s : String) : Option (List Nat) :=
  b64DecodeGroups s.toList

theorem b64Val_b64Char : ∀ v < 64, b64Val (b64Char v) = some v := by decide

theorem b64Char_ne_pad : ∀ v < 64, b64Char v ≠ '=' := by decide

/-- Decoding inverts encoding on byte lists (all bytes below 256). -/
theorem b64DecodeGroups_encode : ∀ (bs : List Nat), (∀ b ∈ bs, b < 256) →
    b64DecodeGroups (b64EncodeGroups bs) = some bs
  | [], _ => rfl
  | [a], h => by
    have ha : a < 256 := h a (by simp)
    have e1 := b64Val_b64Char (a / 4) (by omega)
    have e2 := b64Val_b64Char (a % 4 * 16) (by omega)
    simp [b64EncodeGroups, b64DecodeGroups, e1, e2]
    omega
  | [a, b], h => by
    have ha : a < 256 := h a (by simp)
    have hb : b < 256 := h b (by simp)
    have e1 := b64Val_b64Char (a / 4) (by omega)
    have e2 := b64Val_b64Char (a % 4 * 16 + b / 16) (by omega)
    have e3 := b64Val_b64Char (b % 16 * 4) (by omega)
    have n3 : b64Char (b % 16 * 4) ≠ '=' := b64Char_ne_pad _ (by omega)
    simp [b64EncodeGroups, b64DecodeGroups, e1, e2, e3, n3]
    omega
  | a :: b :: c :: rest, h => by
    have ha : a < 256 := h a (by simp)
    have hb : b < 256 := h b (by simp)
    have hc : c < 256 := h c (by simp)
    have ih := b64DecodeGroups_encode rest (fun x hx => h x (by simp [hx]))
    have e1 := b64Val_b64Char (a / 4) (by omega)
    have e2 := b64Val_b64Char (a % 4 * 16 + b / 16) (by omega)
    have e3 := b64Val_b64Char (b % 16 * 4 + c / 64) (by omega)
    have e4 := b64Val_b64Char (c % 64) (by omega)
    have n3 : b64Char (b % 16 * 4 + c / 64) ≠ '=' := b64Char_ne_pad _ (by omega)
    have n4 : b64Char (c % 64) ≠ '=' := b64Char_ne_pad _ (by omega)
    simp [b64EncodeGroups, b64DecodeGroups, e1, e2, e3, e4, n3, n4, ih]
    omega

/-- base64ToBuffer inverts bufferToBase64 on byte lists. -/
theorem base64ToBuffer_bufferToBase64 (bs : List Nat) (h : ∀ b ∈ bs, b < 256) :
    base64ToBuffer (bufferToBase64 bs) = some bs := by
  unfold base64ToBuffer bufferToBase64
  exact b64DecodeGroups_encode bs h

theorem b64Val_lt (c : Char) (v : Nat) (h : b64Val c = some v) : v < 64 := by
  unfold b64Val at h
  split_ifs at h <;> simp only [Option.some.injEq, reduceCtorEq] at h <;> omega

/-- Every byte produced by base64 decoding is below 256. -/
theorem b64DecodeGroups_bytes_lt : ∀ (cs : List Char) (bs : List Nat),
    b64DecodeGroups cs = some bs → ∀ b ∈ bs, b < 256 := by
  intro cs
  induction cs using b64DecodeGroups.induct with
  | case1 =>
    intro bs h x hx
    simp only [b64DecodeGroups, Option.some.injEq] at h
    subst h
    exact absurd hx (by simp)
  | case2 a b =>
    intro bs h x hx
    simp only [b64DecodeGroups, Option.bind_eq_bind, Option.bind_eq_some] at h
    obtain ⟨va, hva, vb, hvb, hs⟩ := h
    have := b64Val_lt _ _ hva
    have := b64Val_lt _ _ hvb
    simp only [Option.some.injEq] at hs
    simp [← hs] at hx
    omega
  | case3 a b c =>
    intro bs h x hx
    simp only [b64DecodeGroups, Option.bind_eq_bind, Option.bind_eq_some] at h
    obtain ⟨va, hva, vb, hvb, vc, hvc, hs⟩ := h
    have := b64Val_lt _ _ hva
    have := b64Val_lt _ _ hvb
    have := b64Val_lt _ _ hvc
    simp only [Option.some.injEq] at hs
    simp [← hs] at hx
    rcases hx with hx | hx <;> omega
  | case4 a b c d rest h1 =>
    intro bs h x hx
    simp only [b64DecodeGroups, if_pos h1, Option.bind_eq_bind, Option.bind_eq_some] at h
    obtain ⟨va, hva, vb, hvb, hs⟩ := h
    have := b64Val_lt _ _ hva
    have := b64Val_lt _ _ hvb
    simp only [Option.some.injEq] at hs
    simp [← hs] at hx
    omega
  | case5 a b c d rest h1 h2 =>
    intro bs h x hx
    simp only [b64DecodeGroups, if_neg h1, if_pos h2, Option.bind_eq_bind,
      Option.bind_eq_some] at h
    obtain ⟨va, hva, vb, hvb, vc, hvc, hs⟩ := h
    have := b64Val_lt _ _ hva
    have := b64Val_lt _ _ hvb
    have := b64Val_lt _ _ hvc
    simp only [Option.some.injEq] at hs
    simp [← hs] at hx
    rcases hx with hx | hx <;> omega
  | case6 a b c d rest h1 h2 ih =>
    intro bs h x hx
    simp only [b64DecodeGroups, if_neg h1, if_neg h2, Option.bind_eq_bind,
      Option.bind_eq_some] at h
    obtain ⟨va, hva, vb, hvb, vc, hvc, vd, hvd, tl, htl, hs⟩ := h
    have := b64Val_lt _ _ hva
    have := b64Val_lt _ _ hvb
    have := b64Val_lt _ _ hvc
    have := b64Val_lt _ _ hvd
    simp only [Option.some.injEq] at hs
    simp [← hs] at hx
    rcases hx with hx | hx | hx | hx
    · omega
    · omega
    · omega
    · exact ih tl htl x hx
  | case7 a =>
    intro bs h x hx
    simp [b64DecodeGroups] at h

/-! ## Text codec (CryptoEngine.encode / decode)

Modelled from the spec: the platform TextEncoder and TextDecoder pair
used by CryptoEngine.encode and CryptoEngine.decode.  The platform
codec is UTF-8; here it is modelled as a fixed-width injective
codepoint-to-bytes codec (three bytes per character, big-endian), which
preserves the two properties the program relies on: every produced byte
is below 256, and decoding inverts encoding.  The decoder is total and
lossy on non-codec input, as TextDecoder is. -/

/-- Char bound: every Unicode scalar value is below 0x110000. -/
theorem char_toNat_lt (c : Char) : c.toNat < 1114112 := by
  have h := c.valid
  rcases h with h | h
  · exact Nat.lt_trans h (by norm_num)
  · exact h.2

/-- CryptoEngine.encode: text to bytes (platform codec model). -/
def textEncode (s : String) : List Nat :=
  s.toList.flatMap fun ch => [ch.toNat / 65536, ch.toNat / 256 % 256, ch.toNat % 256]

/-- CryptoEngine.decode, on char lists: total, garbage on stray bytes. -/
def textDecodeChars : List Nat → List Char
  | a :: b :: c :: rest => Char.ofNat (a * 65536 + b * 256 + c) :: textDecodeChars rest
  | _ => []

/-- CryptoEngine.decode: bytes to text (platform codec model). -/
def textDecode (bs : List Nat) : String :=
  String.mk (textDecodeChars bs)

theorem textEncode_bytes_lt (s : String) : ∀ b ∈ textEncode s, b < 256 := by
  intro b hb
  unfold textEncode at hb
  simp only [List.mem_flatMap] at hb
  obtain ⟨c, _, hc⟩ := hb
  have := char_toNat_lt c
  simp at hc
  rcases hc with h | h | h <;> omega

theorem textDecode_textEncode (s : String) : textDecode (textEncode s) = s := by
  obtain ⟨cs⟩ := s
  unfold textDecode textEncode
  congr 1
  show textDecodeChars (cs.flatMap _) = cs
  induction cs with
  | nil => rfl
  | cons c rest ih =>
    simp only [List.flatMap_cons, List.cons_append, List.nil_append]
    rw [textDecodeChars]
    have hc := char_toNat_lt c
    have h1 : c.toNat / 65536 * 65536 + c.toNat / 256 % 256 * 256 + c.toNat % 256 = c.toNat := by
      omega
    rw [h1, Char.ofNat_toNat, ih]

/-! ## WebCrypto model (PBKDF2 key derivation and AES-256-GCM)

Modelled from the spec: CryptoEngine.deriveKey calls the platform
PBKDF2-SHA256 with a fixed iteration count; the derivation is a
deterministic, side-effect-free function of (passkey, salt), and the
derived CryptoKey is opaque.  It is modelled as the pair of its inputs.

The AEAD (AES-256-GCM via crypto.subtle.encrypt / decrypt) is modelled
as an ideal authenticated cipher: the ciphertext determines the
plaintext given the right key and IV, and carries an authentication tag
bound to the key and IV.  Decryption with a key or IV whose tag does
not match the ciphertext fails (the platform throws OperationError,
modelled as none). -/

/-- An AES-GCM CryptoKey derived by PBKDF2, modelled symbolically. -/
structure SymKey where
  passkey : String
  salt : List Nat
deriving DecidableEq, Repr

/-- CryptoEngine.deriveKey: PBKDF2(passkey, salt) → AES-256-GCM key. -/
def deriveKey (passkey : String) (salt : List Nat) : SymKey :=
  ⟨passkey, salt⟩

/-- The authentication-tag block an ideal AES-GCM ciphertext carries
for a given key and IV (symbolic model; zero bytes separate fields). -/
def gcmTag (key : SymKey) (iv : List Nat) : List Nat :=
  textEncode key.passkey ++ 0 :: key.salt ++ 0 :: iv ++ [0]

/-- crypto.subtle.encrypt with AES-GCM (ideal-cipher model). -/
def gcmEncrypt (key : SymKey) (iv : List Nat) (plain : List Nat) : List Nat :=
  gcmTag key iv ++ plain

/-- crypto.subtle.decrypt with AES-GCM (ideal-cipher model): checks the
tag against the supplied key and IV; none models OperationError. -/
def gcmDecrypt (key : SymKey) (iv : List Nat) (ct : List Nat) : Option (List Nat) :=
  if ct.take (gcmTag key iv).length = gcmTag key iv then
    some (ct.drop (gcmTag key iv).length)
  else none

theorem gcmDecrypt_gcmEncrypt (key : SymKey) (iv plain : List Nat) :
    gcmDecrypt key iv (gcmEncrypt key iv plain) = some plain := by
  unfold gcmDecrypt gcmEncrypt
  rw [if_pos (List.take_left _ _), List.drop_left]

theorem gcmTag_bytes_lt (key : SymKey) (iv : List Nat)
    (hsalt : ∀ b ∈ key.salt, b < 256) (hiv : ∀ b ∈ iv, b < 256) :
    ∀ b ∈ gcmTag key iv, b < 256 := by
  intro b hb
  unfold gcmTag at hb
  simp only [List.mem_append, List.mem_cons, List.mem_singleton] at hb
  by_cases hx : b ∈ textEncode key.passkey
  · exact textEncode_bytes_lt key.passkey b hx
  by_cases hs2 : b ∈ key.salt
  · exact hsalt b hs2
  by_cases hi2 : b ∈ iv
  · exact hiv b hi2
  have hz : b = 0 := by tauto
  omega

/-! ## CryptoEngine.encrypt / decrypt / generateGibberish -/

/-- CONFIG.IV_LENGTH: 96-bit IV for AES-GCM. -/
def IV_LENGTH : Nat := 12

/-- CONFIG.SALT_LENGTH: 128-bit salt. -/
def SALT_LENGTH : Nat := 16

/-- Result shape of CryptoEngine.encrypt: both fields base64. -/
structure EncResult where
  ciphertext : String
  iv : String
deriving DecidableEq, Repr

/-- Result shape of CryptoEngine.decrypt. -/
structure DecResult where
  text : String
  success : Bool
deriving DecidableEq, Repr

/-- CryptoEngine.encrypt.  The fresh random IV produced by
getRandomBytes(CONFIG.IV_LENGTH) is passed in explicitly; none models
the thrown Error (missing parameters, or atob failing on the salt). -/
def encrypt (plaintext passkey saltB64 : String) (ivBytes : List Nat) :
    Option EncResult :=
  if plaintext = "" ∨ passkey = "" ∨ saltB64 = "" then none
  else
    match base64ToBuffer saltB64 with
    | none => none
    | some salt =>
      let key := deriveKey passkey salt
      let ct := gcmEncrypt key ivBytes (textEncode plaintext)
      some ⟨bufferToBase64 ct, bufferToBase64 ivBytes⟩

/-- The six unicode ranges of CryptoEngine.generateGibberish. -/
def gibberishRanges : List (Nat × Nat) :=
  [(0x0E00, 0x0E7F), (0x10A0, 0x10FF), (0x0530, 0x058F),
   (0x2200, 0x22FF), (0x0400, 0x04FF), (0x3040, 0x309F)]

/-- The character-building loop of generateGibberish: index i over the
first (at most 40) ciphertext bytes; a space after every 7th glyph. -/
def gibberishBody (i : Nat) : List Nat → List Char
  | [] => []
  | b :: rest =>
      let r := gibberishRanges.getD (b % 6) (0, 0)
      let c := Char.ofNat (r.1 + b % (r.2 - r.1))
      let sep := if 0 < i ∧ i % 7 = 0 then [' '] else []
      (c :: sep) ++ gibberishBody (i + 1) rest

/-- CryptoEngine.generateGibberish: deterministic unicode salad derived
from the ciphertext bytes; falls back to a lock glyph when the loop
produces nothing.  It calls base64ToBuffer outside any try block, so a
malformed base64 argument makes it throw (none). -/
def generateGibberish (ciphertextB64 : String) : Option String :=
  (base64ToBuffer ciphertextB64).map fun bytes =>
    let out := String.mk (gibberishBody 0 (bytes.take 40))
    if out = "" then "🔒 ••••••" else out

/-- CryptoEngine.decrypt.  A some result is the returned object; none
models a rejected promise, which can only come from generateGibberish
rethrowing inside the catch block. -/
def decrypt (ciphertextB64 ivB64 passkey saltB64 : String) : Option DecResult :=
  if ciphertextB64 = "" ∨ ivB64 = "" ∨ passkey = "" ∨ saltB64 = "" then
    some ⟨"🔒 Missing decryption data", false⟩
  else
    match (do
        let salt ← base64ToBuffer saltB64
        let iv ← base64ToBuffer ivB64
        let ct ← base64ToBuffer ciphertextB64
        gcmDecrypt (deriveKey passkey salt) iv ct : Option (List Nat)) with
    | some plain => some ⟨textDecode plain, true⟩
    | none => (generateGibberish ciphertextB64).map fun t => ⟨t, false⟩

/-! ## CryptoEngine lockout policy (passkeyAttempts bookkeeping)

The passkeyAttempts store entry for a conversation.  Timestamps are
Date.now() milliseconds, passed in explicitly as now. -/

/-- CONFIG.PASSKEY_LOCKOUT_ATTEMPTS. -/
def PASSKEY_LOCKOUT_ATTEMPTS : Nat := 5

/-- CONFIG.PASSKEY_LOCKOUT_DURATION_MS. -/
def PASSKEY_LOCKOUT_DURATION_MS : Nat := 60000

/-- One passkeyAttempts record: count plus optional lockout expiry. -/
structure AttemptRec where
  count : Nat
  lockedUntil : Option Nat
deriving DecidableEq, Repr

/-- The passkeyAttempts object: conversation id to record. -/
abbrev AttemptMap := List (String × AttemptRec)

/-- CryptoEngine.recordFailedAttempt: bump the counter, stamping the
lockout expiry when the threshold is reached; returns the updated
record and store. -/
def recordFailedAttempt (now : Nat) (conversationId : String) (m : AttemptMap) :
    AttemptRec × AttemptMap :=
  let cur := (mapLookup conversationId m).getD ⟨0, none⟩
  let c := cur.count + 1
  let cur' : AttemptRec :=
    ⟨c, if PASSKEY_LOCKOUT_ATTEMPTS ≤ c then some (now + PASSKEY_LOCKOUT_DURATION_MS)
        else cur.lockedUntil⟩
  (cur', mapSet conversationId cur' m)

/-- CryptoEngine.isLockedOut: true while the threshold is reached and
the expiry has not passed; an expired lockout is deleted on the spot. -/
def isLockedOut (now : Nat) (conversationId : String) (m : AttemptMap) :
    Bool × AttemptMap :=
  match mapLookup conversationId m with
  | none => (false, m)
  | some a =>
    if a.count < PASSKEY_LOCKOUT_ATTEMPTS then (false, m)
    else if a.lockedUntil.getD 0 < now then (false, mapDelete conversationId m)
    else (true, m)

/-- CryptoEngine.resetAttempts: drop the record for a conversation. -/
def resetAttempts (conversationId : String) (m : AttemptMap) : AttemptMap :=
  mapDelete conversationId m

/-! ## CryptoEngine.measureStrength -/

/-- The five strength levels (label, color), in score order. -/
def strengthLevels : List (String × String) :=
  [("Very Weak", "#ef4444"), ("Weak", "#f97316"), ("Fair", "#eab308"),
   ("Strong", "#22c55e"), ("Very Strong", "#06b6d4")]

/-- Result shape of measureStrength. -/
structure StrengthResult where
  score : Nat
  label : String
  color : String
deriving DecidableEq, Repr

/-- The regex (.)\1 with a {2,} quantifier: three or more equal
consecutive characters somewhere in the string. -/
def hasTripleRepeat : List Char → Bool
  | a :: b :: c :: rest => (a = b ∧ b = c : Bool) || hasTripleRepeat (b :: c :: rest)
  | _ => false

/-- The raw tally of measureStrength: length tiers, character classes,
uniqueness bonuses, repetition penalty.  It can reach -1. -/
def strengthTally (cs : List Char) : Int :=
  (if 4 ≤ cs.length then 1 else 0) + (if 8 ≤ cs.length then 1 else 0)
    + (if 12 ≤ cs.length then 1 else 0) + (if 20 ≤ cs.length then 1 else 0)
    + (if cs.any fun c => 'a' ≤ c ∧ c ≤ 'z' then 1 else 0)
    + (if cs.any fun c => 'A' ≤ c ∧ c ≤ 'Z' then 1 else 0)
    + (if cs.any fun c => '0' ≤ c ∧ c ≤ '9' then 1 else 0)
    + (if cs.any fun c =>
        ¬(('a' ≤ c ∧ c ≤ 'z') ∨ ('A' ≤ c ∧ c ≤ 'Z') ∨ ('0' ≤ c ∧ c ≤ '9')) then 1 else 0)
    + (if 6 ≤ cs.dedup.length then 1 else 0) + (if 10 ≤ cs.dedup.length then 1 else 0)
    - (if hasTripleRepeat cs then 1 else 0)

/-- CryptoEngine.measureStrength.  Math.floor(s / 2.5) is computed as
Int.fdiv (2 * s) 5; this is exact because s lies in [-1, 10], where the
double-precision evaluation of s / 2.5 never crosses an integer
boundary in the wrong direction. -/
def measureStrength (passkey : String) : StrengthResult :=
  if passkey = "" then ⟨0, "", ""⟩
  else
    let s := strengthTally passkey.toList
    let n := max 0 (min 4 (Int.fdiv (2 * s) 5))
    let level := strengthLevels.getD n.toNat ("", "")
    ⟨n.toNat, level.1, level.2⟩

/-! ## AppState (reactive store) and reset -/

/-- The sync engine message record, with the fields the handlers read.
A missing or empty idempotency key (falsy in JS) is none. -/
structure Msg where
  id : String
  conversation_id : String
  sender_id : String
  idempotency_key : Option String
deriving DecidableEq, Repr

/-- An offline queue entry: the message payload plus the timestamp
queueMessage stamps it with. -/
structure QEntry where
  conversationId : String
  userId : String
  ciphertext : String
  iv : String
  idempotencyKey : Option String
  queuedAt : Nat
deriving DecidableEq, Repr

/-- Environment read by INITIAL_STATE: the persisted theme preference
(localStorage) and the window width. -/
structure Env where
  storedTheme : Option String
  innerWidth : Nat

/-- The top-level keys of the AppState store, with value types as the
handlers use them. -/
structure AppStateData where
  user : Option String
  session : Option String
  profile : Option String
  contacts : List String
  contactRequests : List String
  blockedUsers : List String
  conversations : List String
  activeConversationId : Option String
  messages : List (String × List Msg)
  messagePagination : List (String × (Bool × Bool))
  passkeys : List (String × String)
  derivedKeys : List (String × SymKey)
  passkeySalts : List (String × String)
  passkeyAttempts : AttemptMap
  onlineUsers : List String
  typingUsers : List (String × List String)
  lastSeen : List (String × String)
  theme : String
  sidebarOpen : Bool
  activeView : String
  connectionStatus : String
  unreadCounts : List (String × Nat)
  totalUnread : Nat
  messageQueue : List QEntry
  initialized : Bool

/-- INITIAL_STATE(): the default store contents, reading the persisted
theme and the window width from the environment. -/
def INITIAL_STATE (env : Env) : AppStateData where
  user := none
  session := none
  profile := none
  contacts := []
  contactRequests := []
  blockedUsers := []
  conversations := []
  activeConversationId := none
  messages := []
  messagePagination := []
  passkeys := []
  derivedKeys := []
  passkeySalts := []
  passkeyAttempts := []
  onlineUsers := []
  typingUsers := []
  lastSeen := []
  theme := env.storedTheme.getD "dark"
  sidebarOpen := 768 < env.innerWidth
  activeView := "chat"
  connectionStatus := "connected"
  unreadCounts := []
  totalUnread := 0
  messageQueue := []
  initialized := false

/-- AppState.reset: first zero every cached passkey (written to the
empty string, then deleted) and derived key (written to null, then
deleted), then replace the whole state with INITIAL_STATE() and restore
the previous theme.  The returned traces record the zeroing writes
performed on the old maps before they are discarded. -/
def reset (env : Env) (s : AppStateData) :
    AppStateData × List (String × String) × List (String × Option SymKey) :=
  let pkWrites := s.passkeys.map fun kv => (kv.1, "")
  let dkWrites := s.derivedKeys.map fun kv => (kv.1, (none : Option SymKey))
  let fresh := INITIAL_STATE env
  ({ fresh with theme := s.theme }, pkWrites, dkWrites)

/-! ## RealtimeManager message handlers and unread bookkeeping -/

/-- The per-instance context _onMessageInsert reads: the signed-in
user, the active conversation, and document.visibilityState. -/
structure SyncCtx where
  userId : String
  activeConversationId : Option String
  visible : Bool

/-- _RealtimeManager._onMessageInsert, restricted to its effect on the
messages store key.  Own messages only emit a confirmation event;
foreign messages are deduplicated by idempotency key, then id, then
appended via AppState.merge.  The auto-mark-read call does not touch
the list. -/
def onMessageInsert (ctx : SyncCtx) (msg : Msg)
    (messages : List (String × List Msg)) : List (String × List Msg) :=
  if msg.sender_id = ctx.userId then messages
  else
    let list := (mapLookup msg.conversation_id messages).getD []
    let dupByKey :=
      match msg.idempotency_key with
      | some k => list.any fun m => m.idempotency_key = some k
      | none => false
    if dupByKey then messages
    else if list.any fun m => m.id = msg.id then messages
    else mapSet msg.conversation_id (list ++ [msg]) messages

/-- The unread slice of the store: unreadCounts and totalUnread. -/
structure UnreadState where
  unreadCounts : List (String × Nat)
  totalUnread : Nat
deriving DecidableEq, Repr

/-- Object.values(counts).reduce((a, b) => a + b, 0). -/
def sumValues (m : List (String × Nat)) : Nat :=
  (m.map Prod.snd).sum

/-- _RealtimeManager._updateUnreadCount: overwrite one conversation
entry, then recompute the total from the updated map. -/
def updateUnreadCount (conversationId : String) (count : Nat)
    (s : UnreadState) : UnreadState :=
  let counts := mapSet conversationId count s.unreadCounts
  ⟨counts, sumValues counts⟩

/-- _RealtimeManager._handleGlobalMessageInsert, restricted to its
effect on the unread slice: own messages and the active visible
conversation are left alone; otherwise the per-conversation counter is
incremented and the total recomputed. -/
def handleGlobalMessageInsert (ctx : SyncCtx) (msg : Option Msg)
    (s : UnreadState) : UnreadState :=
  match msg with
  | none => s
  | some m =>
    if m.sender_id = ctx.userId then s
    else if some m.conversation_id ≠ ctx.activeConversationId ∨ ¬ctx.visible then
      let counts := mapSet m.conversation_id
        ((mapLookup m.conversation_id s.unreadCounts).getD 0 + 1) s.unreadCounts
      ⟨counts, sumValues counts⟩
    else s

/-- The unread part of _ConnectivityManager._handleVisibilityChange
(tab became visible, active conversation marked read): when the active
conversation has a positive count it is zeroed and the total
recomputed; otherwise nothing is written. -/
def visibilityMarkRead (activeConv userId : Option String)
    (s : UnreadState) : UnreadState :=
  match activeConv, userId with
  | some cid, some _ =>
    if 0 < (mapLookup cid s.unreadCounts).getD 0 then
      let counts := mapSet cid 0 s.unreadCounts
      ⟨counts, sumValues counts⟩
    else s
  | _, _ => s

/-! ## ConnectivityManager: offline queue flush -/

/-- The fixed expiry window of flushQueue: 5 minutes. -/
def QUEUE_EXPIRY_MS : Nat := 5 * 60 * 1000

/-- Is a queue entry older than the expiry window?  Date.now() minus
the queue timestamp, truncated at zero like the JS difference is
negative, never exceeds the window for future timestamps. -/
def entryExpired (now : Nat) (e : QEntry) : Bool :=
  QUEUE_EXPIRY_MS < now - e.queuedAt

/-- Counts reported by flushQueue. -/
structure FlushResult where
  sent : Nat
  failed : Nat
  remaining : Nat
deriving DecidableEq, Repr

/-- The per-entry loop of flushQueue.  sendOk models the transport:
whether SupabaseService.sendMessage resolves for a given payload.
Returns (sent count, failed count, kept entries, sent entries in send
order). -/
def flushLoop (now : Nat) (sendOk : QEntry → Bool) :
    List QEntry → Nat × Nat × List QEntry × List QEntry
  | [] => (0, 0, [], [])
  | e :: rest =>
    let r := flushLoop now sendOk rest
    if entryExpired now e then (r.1, r.2.1 + 1, r.2.2.1, r.2.2.2)
    else if sendOk e then (r.1 + 1, r.2.1, r.2.2.1, e :: r.2.2.2)
    else (r.1, r.2.1 + 1, e :: r.2.2.1, r.2.2.2)

/-- _ConnectivityManager.flushQueue: walk the queue in FIFO order,
discard expired entries as failed, keep entries whose send failed,
store the survivors back, and report the counts.  Also returns the new
queue contents and the trace of entries actually sent. -/
def flushQueue (now : Nat) (sendOk : QEntry → Bool) (queue : List QEntry) :
    FlushResult × List QEntry × List QEntry :=
  if queue.length = 0 then (⟨0, 0, 0⟩, queue, [])
  else
    let r := flushLoop now sendOk queue
    (⟨r.1, r.2.1, r.2.2.1.length⟩, r.2.2.1, r.2.2.2)

/-! ## ConnectivityManager: reconnection backoff -/

/-- CONFIG.RECONNECT_INTERVAL_MS, as a rational for the float
arithmetic of the delay formula. -/
def RECONNECT_INTERVAL_MS : ℚ := 5000

/-- this._maxReconnectDelay. -/
def maxReconnectDelay : ℚ := 30000

/-- The MAX_ATTEMPTS cap of _startReconnecting. -/
def MAX_ATTEMPTS : Nat := 15

/-- The delay scheduled after failed attempt number a (a ≥ 1):
CONFIG.RECONNECT_INTERVAL_MS * 1.5^(attempts - 1) + jitter, clamped to
the ceiling.  Exact over ℚ: 1.5 powers and their products with 5000
are exactly representable doubles in this range. -/
def backoffDelay (a : Nat) (jitter : ℚ) : ℚ :=
  min (RECONNECT_INTERVAL_MS * (3 / 2 : ℚ) ^ (a - 1) + jitter) maxReconnectDelay

/-- Connection status of the supervisor. -/
inductive ConnStatus
  | online
  | offline
  | reconnecting
deriving DecidableEq, Repr

/-- State of the _startReconnecting loop: the attempt counter, the
status, whether a retry timer is pending, and the trace of scheduled
backoff delays. -/
structure RecoState where
  reconnectAttempts : Nat
  status : ConnStatus
  timerActive : Bool
  delays : List ℚ
deriving DecidableEq, Repr

/-- One failed reconnection attempt inside _startReconnecting (the
catch branch of attemptReconnect): bump the counter; at the cap, stop
the loop and go offline with a persistent error; otherwise schedule the
next attempt after the backoff delay.  No timer pending means the loop
is not running and nothing happens. -/
def failedAttemptStep (jitter : ℚ) (s : RecoState) : RecoState :=
  if s.timerActive then
    let a := s.reconnectAttempts + 1
    if MAX_ATTEMPTS ≤ a then
      { reconnectAttempts := a, status := .offline, timerActive := false,
        delays := s.delays }
    else
      { reconnectAttempts := a, status := s.status, timerActive := true,
        delays := s.delays ++ [backoffDelay a jitter] }
  else s

/-- The state right after _startReconnecting is entered with a fresh
attempt counter. -/
def recoInit : RecoState :=
  { reconnectAttempts := 0, status := .reconnecting, timerActive := true,
    delays := [] }

/-- n consecutive failed attempts from the start of the loop, with
jitter sequence js. -/
def runBackoff (js : Nat → ℚ) : Nat → RecoState
  | 0 => recoInit
  | n + 1 => failedAttemptStep (js n) (runBackoff js n)

/-! ## Claim theorems -/

theorem bufferToBase64_ne_empty (bs : List Nat) (h : bs ≠ []) :
    bufferToBase64 bs ≠ "" := by
  unfold bufferToBase64
  intro hc
  have hl : b64EncodeGroups bs = [] := congrArg String.toList hc
  rcases bs with _ | ⟨a, _ | ⟨b, _ | ⟨c, rest⟩⟩⟩
  · exact h rfl
  all_goals simp [b64EncodeGroups] at hl

theorem gcmTag_ne_nil (key : SymKey) (iv : List Nat) : gcmTag key iv ≠ [] := by
  unfold gcmTag
  intro h
  have := congrArg List.length h
  simp at this

/-- C1: for every non-empty plaintext, passphrase and salt, decrypting
the output of encrypt (its ciphertext and iv) with the same passphrase
and salt returns the original plaintext with the success flag true.
The IV argument is the fresh getRandomBytes(CONFIG.IV_LENGTH) buffer
encrypt draws internally. -/
theorem encrypt_decrypt_roundtrip
    (plaintext passkey saltB64 : String) (iv : List Nat) (er : EncResult)
    (hpt : plaintext ≠ "") (hpk : passkey ≠ "") (hsalt : saltB64 ≠ "")
    (hivlen : iv.length = IV_LENGTH) (hivb : ∀ b ∈ iv, b < 256)
    (henc : encrypt plaintext passkey saltB64 iv = some er) :
    decrypt er.ciphertext er.iv passkey saltB64 = some ⟨plaintext, true⟩ := by
  unfold encrypt at henc
  rw [if_neg (by simp [hpt, hpk, hsalt])] at henc
  cases hsd : base64ToBuffer saltB64 with
  | none => rw [hsd] at henc; exact absurd henc (by simp)
  | some salt =>
    rw [hsd] at henc
    simp only [Option.some.injEq] at henc
    subst henc
    have hsaltb : ∀ b ∈ salt, b < 256 :=
      b64DecodeGroups_bytes_lt (saltB64.toList) salt hsd
    have htag : ∀ b ∈ gcmTag (deriveKey passkey salt) iv, b < 256 :=
      gcmTag_bytes_lt (deriveKey passkey salt) iv hsaltb hivb
    have hct : ∀ b ∈ gcmEncrypt (deriveKey passkey salt) iv (textEncode plaintext),
        b < 256 := by
      intro b hb
      unfold gcmEncrypt at hb
      rcases List.mem_append.mp hb with h | h
      · exact htag b h
      · exact textEncode_bytes_lt plaintext b h
    have hctne : gcmEncrypt (deriveKey passkey salt) iv (textEncode plaintext) ≠ [] := by
      unfold gcmEncrypt
      intro h
      exact gcmTag_ne_nil (deriveKey passkey salt) iv (List.append_eq_nil.mp h).1
    have hivne : iv ≠ [] := by
      intro h
      rw [h] at hivlen
      simp [IV_LENGTH] at hivlen
    unfold decrypt
    rw [if_neg (by
      simp only [not_or]
      exact ⟨bufferToBase64_ne_empty _ hctne, bufferToBase64_ne_empty _ hivne, hpk, hsalt⟩)]
    rw [hsd]
    simp only [Option.bind_eq_bind, Option.some_bind]
    rw [base64ToBuffer_bufferToBase64 iv hivb,
        base64ToBuffer_bufferToBase64 _ hct]
    simp only [Option.some_bind]
    rw [gcmDecrypt_gcmEncrypt]
    simp only [Option.some.injEq, DecResult.mk.injEq, and_true]
    exact textDecode_textEncode plaintext

/-- C1 witness: a concrete round trip through encrypt then decrypt. -/
theorem encrypt_decrypt_roundtrip_witness :
    encrypt "hi" "key" "AAAAAAAAAAAAAAAAAAAAAA==" (List.replicate 12 7)
        = some ⟨"AABrAABlAAB5AAAAAAAAAAAAAAAAAAAAAAAABwcHBwcHBwcHBwcHAAAAaAAAaQ==",
                "BwcHBwcHBwcHBwcH"⟩ ∧
      decrypt "AABrAABlAAB5AAAAAAAAAAAAAAAAAAAAAAAABwcHBwcHBwcHBwcHAAAAaAAAaQ=="
        "BwcHBwcHBwcHBwcH" "key" "AAAAAAAAAAAAAAAAAAAAAA==" = some ⟨"hi", true⟩ :=
  ⟨by decide, by
    have h := encrypt_decrypt_roundtrip "hi" "key" "AAAAAAAAAAAAAAAAAAAAAA=="
      (List.replicate 12 7)
      ⟨"AABrAABlAAB5AAAAAAAAAAAAAAAAAAAAAAAABwcHBwcHBwcHBwcHAAAAaAAAaQ==",
       "BwcHBwcHBwcHBwcH"⟩
      (by decide) (by decide) (by decide) (by decide) (by decide) (by decide)
    exact h⟩

/-- C2: the never-throws contract is broken by the code.  When the
ciphertext itself is malformed base64, the catch branch of decrypt
calls generateGibberish, whose own base64ToBuffer call rethrows from
inside the catch handler, so decrypt rejects instead of returning a
placeholder object.  This evaluates decrypt at such an input: the
result is none (a rejected promise), not an ok-false object. -/
theorem decrypt_malformed_ciphertext_rethrows :
    decrypt "!!!!" "BwcHBwcHBwcHBwcH" "p" "AAAAAAAAAAAAAAAAAAAAAA==" = none := by
  decide

/-- C7: for a fixed ciphertext, any two decrypt calls with complete
inputs that fail cryptographically (success false) return exactly the
same placeholder text, namely generateGibberish of the ciphertext
alone — independent of the passphrase, salt, IV, and call count. -/
theorem wrong_key_placeholder_deterministic
    (ct iv1 pk1 s1 iv2 pk2 s2 t1 t2 : String)
    (hct : ct ≠ "") (hiv1 : iv1 ≠ "") (hpk1 : pk1 ≠ "") (hs1 : s1 ≠ "")
    (hiv2 : iv2 ≠ "") (hpk2 : pk2 ≠ "") (hs2 : s2 ≠ "")
    (hd1 : decrypt ct iv1 pk1 s1 = some ⟨t1, false⟩)
    (hd2 : decrypt ct iv2 pk2 s2 = some ⟨t2, false⟩) :
    t1 = t2 ∧ generateGibberish ct = some t1 := by
  have key : ∀ iv pk s t, iv ≠ "" → pk ≠ "" → s ≠ "" →
      decrypt ct iv pk s = some ⟨t, false⟩ → generateGibberish ct = some t := by
    intro iv pk s t hiv hpk hs hd
    unfold decrypt at hd
    rw [if_neg (by simp [hct, hiv, hpk, hs])] at hd
    split at hd
    · injection hd with h
      injection h with h1 h2
      exact absurd h2 (by simp)
    · cases hg : generateGibberish ct with
      | none => rw [hg] at hd; simp at hd
      | some g =>
        rw [hg] at hd
        simp at hd
        exact congrArg some hd
  have e1 := key iv1 pk1 s1 t1 hiv1 hpk1 hs1 hd1
  have e2 := key iv2 pk2 s2 t2 hiv2 hpk2 hs2 hd2
  refine ⟨?_, e1⟩
  have := e1.symm.trans e2
  exact Option.some.inj this

/-- C7 witness: two wrong passphrases against one concrete ciphertext
both fail and yield the very same placeholder. -/
theorem wrong_key_placeholder_deterministic_witness :
    generateGibberish
        "AABrAABlAAB5AAAAAAAAAAAAAAAAAAAAAAAABwcHBwcHBwcHBwcHAAAAaAAAaQ=="
      = some "฀฀が฀฀う฀฀ Ⴚ฀฀฀฀฀฀ ฀฀฀฀฀฀฀ ฀฀฀฀฀ႧႧ ႧႧႧႧႧႧႧ ႧႧႧ฀" :=
  (wrong_key_placeholder_deterministic
    "AABrAABlAAB5AAAAAAAAAAAAAAAAAAAAAAAABwcHBwcHBwcHBwcHAAAAaAAAaQ=="
    "BwcHBwcHBwcHBwcH" "nope" "AAAAAAAAAAAAAAAAAAAAAA=="
    "BwcHBwcHBwcHBwcH" "alsono" "AAAAAAAAAAAAAAAAAAAAAA=="
    "฀฀が฀฀う฀฀ Ⴚ฀฀฀฀฀฀ ฀฀฀฀฀฀฀ ฀฀฀฀฀ႧႧ ႧႧႧႧႧႧႧ ႧႧႧ฀"
    "฀฀が฀฀う฀฀ Ⴚ฀฀฀฀฀฀ ฀฀฀฀฀฀฀ ฀฀฀฀฀ႧႧ ႧႧႧႧႧႧႧ ႧႧႧ฀"
    (by decide) (by decide) (by decide) (by decide) (by decide) (by decide)
    (by decide) (by decide) (by decide)).2

/-- C3: starting with no recorded attempts, after exactly five calls to
recordFailedAttempt the conversation is locked out, and it stays locked
out exactly until the lockout duration has elapsed (strictly) past the
fifth failure; once elapsed, isLockedOut reports false and deletes the
record, so the counter is reset.  After one to four failures it is
never locked out. -/
theorem lockout_boundary (m0 : AttemptMap) (cid : String)
    (t1 t2 t3 t4 t5 now : Nat) (h0 : mapLookup cid m0 = none) :
    let m1 := (recordFailedAttempt t1 cid m0).2
    let m2 := (recordFailedAttempt t2 cid m1).2
    let m3 := (recordFailedAttempt t3 cid m2).2
    let m4 := (recordFailedAttempt t4 cid m3).2
    let m5 := (recordFailedAttempt t5 cid m4).2
    (isLockedOut now cid m1).1 = false ∧
      (isLockedOut now cid m2).1 = false ∧
      (isLockedOut now cid m3).1 = false ∧
      (isLockedOut now cid m4).1 = false ∧
      mapLookup cid m5 = some ⟨5, some (t5 + PASSKEY_LOCKOUT_DURATION_MS)⟩ ∧
      (isLockedOut now cid m5).1 = decide (now ≤ t5 + PASSKEY_LOCKOUT_DURATION_MS) ∧
      (t5 + PASSKEY_LOCKOUT_DURATION_MS < now →
        mapLookup cid (isLockedOut now cid m5).2 = none) := by
  intro m1 m2 m3 m4 m5
  have e1 : m1 = mapSet cid ⟨1, none⟩ m0 := by
    simp [m1, recordFailedAttempt, h0, PASSKEY_LOCKOUT_ATTEMPTS]
  have e2 : m2 = mapSet cid ⟨2, none⟩ m0 := by
    simp [m2, recordFailedAttempt, e1, mapLookup_set_self, mapSet_mapSet,
      PASSKEY_LOCKOUT_ATTEMPTS]
  have e3 : m3 = mapSet cid ⟨3, none⟩ m0 := by
    simp [m3, recordFailedAttempt, e2, mapLookup_set_self, mapSet_mapSet,
      PASSKEY_LOCKOUT_ATTEMPTS]
  have e4 : m4 = mapSet cid ⟨4, none⟩ m0 := by
    simp [m4, recordFailedAttempt, e3, mapLookup_set_self, mapSet_mapSet,
      PASSKEY_LOCKOUT_ATTEMPTS]
  have e5 : m5 = mapSet cid ⟨5, some (t5 + PASSKEY_LOCKOUT_DURATION_MS)⟩ m0 := by
    simp [m5, recordFailedAttempt, e4, mapLookup_set_self, mapSet_mapSet,
      PASSKEY_LOCKOUT_ATTEMPTS]
  refine ⟨?_, ?_, ?_, ?_, ?_, ?_, ?_⟩
  · simp [isLockedOut, e1, mapLookup_set_self, PASSKEY_LOCKOUT_ATTEMPTS]
  · simp [isLockedOut, e2, mapLookup_set_self, PASSKEY_LOCKOUT_ATTEMPTS]
  · simp [isLockedOut, e3, mapLookup_set_self, PASSKEY_LOCKOUT_ATTEMPTS]
  · simp [isLockedOut, e4, mapLookup_set_self, PASSKEY_LOCKOUT_ATTEMPTS]
  · rw [e5, mapLookup_set_self]
  · by_cases hnow : t5 + PASSKEY_LOCKOUT_DURATION_MS < now
    · simp [isLockedOut, e5, mapLookup_set_self, PASSKEY_LOCKOUT_ATTEMPTS, hnow]
      try omega
    · simp [isLockedOut, e5, mapLookup_set_self, PASSKEY_LOCKOUT_ATTEMPTS, hnow]
      try omega
  · intro hnow
    simp [isLockedOut, e5, mapLookup_set_self, PASSKEY_LOCKOUT_ATTEMPTS, hnow,
      mapDelete_set_of_lookup_none cid _ m0 h0, h0]

/-- C3 witness: five concrete failures, checked locked at the boundary
and reset after expiry. -/
theorem lockout_boundary_witness :
    let m1 := (recordFailedAttempt 10 "c" []).2
    let m2 := (recordFailedAttempt 20 "c" m1).2
    let m3 := (recordFailedAttempt 30 "c" m2).2
    let m4 := (recordFailedAttempt 40 "c" m3).2
    let m5 := (recordFailedAttempt 50 "c" m4).2
    (isLockedOut 60050 "c" m1).1 = false ∧
      (isLockedOut 60050 "c" m2).1 = false ∧
      (isLockedOut 60050 "c" m3).1 = false ∧
      (isLockedOut 60050 "c" m4).1 = false ∧
      mapLookup "c" m5 = some ⟨5, some (50 + PASSKEY_LOCKOUT_DURATION_MS)⟩ ∧
      (isLockedOut 60050 "c" m5).1 = decide (60050 ≤ 50 + PASSKEY_LOCKOUT_DURATION_MS) ∧
      (50 + PASSKEY_LOCKOUT_DURATION_MS < 60050 →
        mapLookup "c" (isLockedOut 60050 "c" m5).2 = none) :=
  lockout_boundary [] "c" 10 20 30 40 50 60050 rfl

/-- C4: delivering the same insert event for another party it twice to
the per-conversation message handler is idempotent and leaves exactly
one copy of that message in the local list for its conversation. -/
theorem message_insert_dedup (ctx : SyncCtx) (msg : Msg)
    (messages : List (String × List Msg))
    (hown : msg.sender_id ≠ ctx.userId)
    (hid : ∀ m ∈ (mapLookup msg.conversation_id messages).getD [],
      m.id ≠ msg.id)
    (hkey : ∀ m ∈ (mapLookup msg.conversation_id messages).getD [],
      msg.idempotency_key = none ∨ m.idempotency_key ≠ msg.idempotency_key) :
    onMessageInsert ctx msg (onMessageInsert ctx msg messages)
        = onMessageInsert ctx msg messages ∧
      ((mapLookup msg.conversation_id
            (onMessageInsert ctx msg (onMessageInsert ctx msg messages))).getD
          []).countP (fun m => m.id == msg.id) = 1 := by
  have hany : ((mapLookup msg.conversation_id messages).getD []).any
      (fun m => decide (m.id = msg.id)) = false := by
    simp only [List.any_eq_false, decide_eq_true_eq]
    exact hid
  have hc0 : ((mapLookup msg.conversation_id messages).getD []).countP
      (fun m => m.id == msg.id) = 0 := by
    rw [List.countP_eq_zero]
    intro m hm
    simp only [beq_iff_eq]
    exact hid m hm
  cases hk : msg.idempotency_key with
  | none =>
    have e1 : onMessageInsert ctx msg messages
        = mapSet msg.conversation_id
            ((mapLookup msg.conversation_id messages).getD [] ++ [msg]) messages := by
      simp only [onMessageInsert, if_neg hown, hk, Bool.false_eq_true, if_false, hany]
    have e2 : onMessageInsert ctx msg (mapSet msg.conversation_id
          ((mapLookup msg.conversation_id messages).getD [] ++ [msg]) messages)
        = mapSet msg.conversation_id
            ((mapLookup msg.conversation_id messages).getD [] ++ [msg]) messages := by
      simp only [onMessageInsert, if_neg hown, hk, Bool.false_eq_true, if_false,
        mapLookup_set_self, Option.getD_some]
      simp [List.any_append]
    refine ⟨by rw [e1, e2], ?_⟩
    rw [e1, e2, mapLookup_set_self]
    simp [List.countP_append, hc0, List.countP_cons]
  | some k =>
    have hanyk : ((mapLookup msg.conversation_id messages).getD []).any
        (fun m => decide (m.idempotency_key = some k)) = false := by
      simp only [List.any_eq_false, decide_eq_true_eq]
      intro m hm
      rcases hkey m hm with h | h
      · rw [hk] at h; exact absurd h (by simp)
      · rw [hk] at h; exact fun hc => h (by rw [hc])
    have e1 : onMessageInsert ctx msg messages
        = mapSet msg.conversation_id
            ((mapLookup msg.conversation_id messages).getD [] ++ [msg]) messages := by
      simp only [onMessageInsert, if_neg hown, hk, hanyk, Bool.false_eq_true,
        if_false, hany]
    have e2 : onMessageInsert ctx msg (mapSet msg.conversation_id
          ((mapLookup msg.conversation_id messages).getD [] ++ [msg]) messages)
        = mapSet msg.conversation_id
            ((mapLookup msg.conversation_id messages).getD [] ++ [msg]) messages := by
      simp only [onMessageInsert, if_neg hown, hk, mapLookup_set_self, Option.getD_some]
      simp [List.any_append, hk]
    refine ⟨by rw [e1, e2], ?_⟩
    rw [e1, e2, mapLookup_set_self]
    simp [List.countP_append, hc0, List.countP_cons]

/-- C4 witness: the same foreign insert delivered twice into an empty
store leaves one copy. -/
theorem message_insert_dedup_witness :
    onMessageInsert ⟨"me", some "c1", true⟩ ⟨"m1", "c1", "peer", some "k1"⟩
        (onMessageInsert ⟨"me", some "c1", true⟩ ⟨"m1", "c1", "peer", some "k1"⟩ [])
      = onMessageInsert ⟨"me", some "c1", true⟩ ⟨"m1", "c1", "peer", some "k1"⟩ [] ∧
    ((mapLookup "c1" (onMessageInsert ⟨"me", some "c1", true⟩
        ⟨"m1", "c1", "peer", some "k1"⟩
        (onMessageInsert ⟨"me", some "c1", true⟩ ⟨"m1", "c1", "peer", some "k1"⟩
          []))).getD []).countP (fun m => m.id == "m1") = 1 :=
  message_insert_dedup ⟨"me", some "c1", true⟩ ⟨"m1", "c1", "peer", some "k1"⟩ []
    (by decide) (by simp [mapLookup]) (by simp [mapLookup])

theorem backoffDelay_mono (a : Nat) (ha : 1 ≤ a) (b : Nat) (hb : b = a + 1)
    (j j' : ℚ) (hj : j < 1000) (hj' : 0 ≤ j') :
    backoffDelay a j ≤ backoffDelay b j' := by
  subst hb
  unfold backoffDelay RECONNECT_INTERVAL_MS maxReconnectDelay
  apply min_le_min _ le_rfl
  have hp : (1 : ℚ) ≤ (3 / 2 : ℚ) ^ (a - 1) := one_le_pow₀ (by norm_num)
  have hstep : (3 / 2 : ℚ) ^ (a + 1 - 1) = (3 / 2 : ℚ) ^ (a - 1) * (3 / 2) := by
    have h1 : a + 1 - 1 = (a - 1) + 1 := by omega
    rw [h1, pow_succ]
  rw [hstep]
  nlinarith [hp]

/-- C5: in the reconnection backoff loop, every failed attempt below the
cap schedules the next retry after RECONNECT_INTERVAL_MS * 1.5^(attempts-1)
plus the random jitter (below 1000 ms), clamped to the 30 s ceiling, and
these delays are non-decreasing; after 15 consecutive failures the loop
has stopped, the attempt counter has saturated at 15 (further steps
change nothing), and the status is offline. -/
theorem backoff_monotone_cap (js : Nat → ℚ)
    (hj : ∀ i, 0 ≤ js i ∧ js i < 1000) :
    (runBackoff js 15).reconnectAttempts = 15 ∧
      (runBackoff js 15).status = ConnStatus.offline ∧
      (runBackoff js 15).timerActive = false ∧
      (runBackoff js 15).delays
          = (List.range 14).map (fun i => backoffDelay (i + 1) (js i)) ∧
      List.Chain' (· ≤ ·) (runBackoff js 15).delays ∧
      (∀ n, runBackoff js (15 + n) = runBackoff js 15) := by
  have h15 : runBackoff js 15 =
      { reconnectAttempts := 15, status := .offline, timerActive := false,
        delays := [backoffDelay 1 (js 0), backoffDelay 2 (js 1),
          backoffDelay 3 (js 2), backoffDelay 4 (js 3), backoffDelay 5 (js 4),
          backoffDelay 6 (js 5), backoffDelay 7 (js 6), backoffDelay 8 (js 7),
          backoffDelay 9 (js 8), backoffDelay 10 (js 9), backoffDelay 11 (js 10),
          backoffDelay 12 (js 11), backoffDelay 13 (js 12),
          backoffDelay 14 (js 13)] } := by
    show runBackoff js 15 = _
    simp [runBackoff, failedAttemptStep, recoInit, MAX_ATTEMPTS]
  refine ⟨by rw [h15], by rw [h15], by rw [h15], by rw [h15]; rfl, ?_, ?_⟩
  · rw [h15]
    simp only [List.chain'_cons, List.chain'_singleton, and_true]
    and_intros <;>
      exact backoffDelay_mono _ (by norm_num) _ (by norm_num) _ _
        (hj _).2 (hj _).1
  · intro n
    induction n with
    | zero => rfl
    | succ n ih =>
      have hn : 15 + (n + 1) = (15 + n) + 1 := by omega
      rw [hn]
      show failedAttemptStep (js (15 + n)) (runBackoff js (15 + n)) = _
      rw [ih, h15]
      simp [failedAttemptStep]

/-- C5 witness: with zero jitter throughout, the loop ends offline with
the counter saturated at 15. -/
theorem backoff_monotone_cap_witness :
    (runBackoff (fun _ => 0) 15).reconnectAttempts = 15 ∧
      (runBackoff (fun _ => 0) 15).status = ConnStatus.offline :=
  ⟨(backoff_monotone_cap (fun _ => 0) (by intro i; norm_num)).1,
   (backoff_monotone_cap (fun _ => 0) (by intro i; norm_num)).2.1⟩

theorem flushLoop_spec (now : Nat) (sendOk : QEntry → Bool) (queue : List QEntry) :
    flushLoop now sendOk queue =
      ((queue.filter fun e => !entryExpired now e && sendOk e).length,
       (queue.filter fun e => entryExpired now e || !sendOk e).length,
       queue.filter (fun e => !entryExpired now e && !sendOk e),
       queue.filter (fun e => !entryExpired now e && sendOk e)) := by
  induction queue with
  | nil => rfl
  | cons e rest ih =>
    by_cases hexp : entryExpired now e
    · simp [flushLoop, List.filter_cons, hexp, ih]
    · by_cases hok : sendOk e
      · simp [flushLoop, List.filter_cons, hexp, hok, ih]
      · simp [flushLoop, List.filter_cons, hexp, hok, ih]

/-- C6: flushQueue walks the queue in FIFO order: the entries sent (in
send order) are exactly the unexpired entries whose send succeeds, the
entries kept for the next flush are exactly the unexpired entries whose
send fails, in queue order, and the reported counts are the number of
successful sends, of failed-or-expired entries, and of kept entries;
an expired entry is never among the sent ones. -/
theorem flushQueue_fifo_counts (now : Nat) (sendOk : QEntry → Bool)
    (queue : List QEntry) :
    (flushQueue now sendOk queue).2.2
        = queue.filter (fun e => !entryExpired now e && sendOk e) ∧
      (flushQueue now sendOk queue).2.1
        = queue.filter (fun e => !entryExpired now e && !sendOk e) ∧
      (flushQueue now sendOk queue).1.sent
        = (queue.filter (fun e => !entryExpired now e && sendOk e)).length ∧
      (flushQueue now sendOk queue).1.failed
        = (queue.filter (fun e => entryExpired now e || !sendOk e)).length ∧
      (flushQueue now sendOk queue).1.remaining
        = (flushQueue now sendOk queue).2.1.length ∧
      (∀ e ∈ queue, entryExpired now e = true →
        e ∉ (flushQueue now sendOk queue).2.2) := by
  unfold flushQueue
  by_cases hq : queue.length = 0
  · have : queue = [] := List.length_eq_zero.mp hq
    subst this
    simp
  · rw [if_neg hq]
    rw [flushLoop_spec]
    refine ⟨rfl, rfl, rfl, rfl, rfl, ?_⟩
    intro e _ hexp hmem
    have := List.of_mem_filter hmem
    simp [hexp] at this

/-- C6 witness: one expired entry is dropped and counted failed, one
fresh entry whose send fails is kept. -/
theorem flushQueue_fifo_counts_witness :
    (flushQueue 400000 (fun _ => false)
        [⟨"c", "u", "ct1", "iv1", none, 10⟩,
         ⟨"c", "u", "ct2", "iv2", none, 399000⟩]).1.failed = 2 :=
  ((flushQueue_fifo_counts 400000 (fun _ => false)
      [⟨"c", "u", "ct1", "iv1", none, 10⟩,
       ⟨"c", "u", "ct2", "iv2", none, 399000⟩]).2.2.2.1).trans (by decide)

/-- C8: after reset the theme keeps its pre-reset value, every other
top-level key equals its initial default, and the zeroing pass blanked
and removed every cached passkey (written to the empty string) and
derived key (written to null) of the old state before it was dropped. -/
theorem reset_defaults_except_theme (env : Env) (s : AppStateData) :
    (reset env s).1.theme = s.theme ∧
      (reset env s).1.user = (INITIAL_STATE env).user ∧
      (reset env s).1.session = (INITIAL_STATE env).session ∧
      (reset env s).1.profile = (INITIAL_STATE env).profile ∧
      (reset env s).1.contacts = (INITIAL_STATE env).contacts ∧
      (reset env s).1.contactRequests = (INITIAL_STATE env).contactRequests ∧
      (reset env s).1.blockedUsers = (INITIAL_STATE env).blockedUsers ∧
      (reset env s).1.conversations = (INITIAL_STATE env).conversations ∧
      (reset env s).1.activeConversationId
          = (INITIAL_STATE env).activeConversationId ∧
      (reset env s).1.messages = (INITIAL_STATE env).messages ∧
      (reset env s).1.messagePagination = (INITIAL_STATE env).messagePagination ∧
      (reset env s).1.passkeys = (INITIAL_STATE env).passkeys ∧
      (reset env s).1.derivedKeys = (INITIAL_STATE env).derivedKeys ∧
      (reset env s).1.passkeySalts = (INITIAL_STATE env).passkeySalts ∧
      (reset env s).1.passkeyAttempts = (INITIAL_STATE env).passkeyAttempts ∧
      (reset env s).1.onlineUsers = (INITIAL_STATE env).onlineUsers ∧
      (reset env s).1.typingUsers = (INITIAL_STATE env).typingUsers ∧
      (reset env s).1.lastSeen = (INITIAL_STATE env).lastSeen ∧
      (reset env s).1.sidebarOpen = (INITIAL_STATE env).sidebarOpen ∧
      (reset env s).1.activeView = (INITIAL_STATE env).activeView ∧
      (reset env s).1.connectionStatus = (INITIAL_STATE env).connectionStatus ∧
      (reset env s).1.unreadCounts = (INITIAL_STATE env).unreadCounts ∧
      (reset env s).1.totalUnread = (INITIAL_STATE env).totalUnread ∧
      (reset env s).1.messageQueue = (INITIAL_STATE env).messageQueue ∧
      (reset env s).1.initialized = (INITIAL_STATE env).initialized ∧
      (reset env s).2.1.map Prod.fst = s.passkeys.map Prod.fst ∧
      (∀ p ∈ (reset env s).2.1, p.2 = "") ∧
      (reset env s).2.2.map Prod.fst = s.derivedKeys.map Prod.fst ∧
      (∀ p ∈ (reset env s).2.2, p.2 = none) := by
  refine ⟨rfl, rfl, rfl, rfl, rfl, rfl, rfl, rfl, rfl, rfl, rfl, rfl, rfl, rfl,
    rfl, rfl, rfl, rfl, rfl, rfl, rfl, rfl, rfl, rfl, rfl, ?_, ?_, ?_, ?_⟩
  · simp [reset]
  · intro p hp
    unfold reset at hp
    simp only [List.mem_map] at hp
    obtain ⟨kv, _, hkv⟩ := hp
    rw [← hkv]
  · simp [reset]
  · intro p hp
    unfold reset at hp
    simp only [List.mem_map] at hp
    obtain ⟨kv, _, hkv⟩ := hp
    rw [← hkv]

/-- C8 witness: a concrete state with a changed theme and two cached
keys. -/
theorem reset_defaults_except_theme_witness :
    (reset ⟨some "dark", 500⟩
        { user := some "u", session := some "sess", profile := none,
          contacts := [], contactRequests := [], blockedUsers := [],
          conversations := [], activeConversationId := some "c1",
          messages := [], messagePagination := [],
          passkeys := [("c1", "hunter2")],
          derivedKeys := [("c1", ⟨"hunter2", [0]⟩)],
          passkeySalts := [], passkeyAttempts := [], onlineUsers := [],
          typingUsers := [], lastSeen := [], theme := "light",
          sidebarOpen := false, activeView := "chat",
          connectionStatus := "connected", unreadCounts := [],
          totalUnread := 0, messageQueue := [], initialized := true }).1.theme
      = "light" :=
  (reset_defaults_except_theme ⟨some "dark", 500⟩
    { user := some "u", session := some "sess", profile := none,
      contacts := [], contactRequests := [], blockedUsers := [],
      conversations := [], activeConversationId := some "c1",
      messages := [], messagePagination := [],
      passkeys := [("c1", "hunter2")],
      derivedKeys := [("c1", ⟨"hunter2", [0]⟩)],
      passkeySalts := [], passkeyAttempts := [], onlineUsers := [],
      typingUsers := [], lastSeen := [], theme := "light",
      sidebarOpen := false, activeView := "chat",
      connectionStatus := "connected", unreadCounts := [],
      totalUnread := 0, messageQueue := [], initialized := true }).1

theorem getD_mem_strengthLevels (i : Nat) (h : i < 5) :
    strengthLevels.getD i ("", "") ∈ strengthLevels := by
  interval_cases i <;> decide

/-- C9: measureStrength always scores in [0, 4], and for non-empty
input the returned label and color are one of the five fixed levels:
the level index never leaves the array bounds. -/
theorem measureStrength_score_bounds (passkey : String) :
    (measureStrength passkey).score ≤ 4 ∧
      (passkey ≠ "" →
        (measureStrength passkey).score < strengthLevels.length ∧
          ((measureStrength passkey).label, (measureStrength passkey).color)
            ∈ strengthLevels) := by
  by_cases h : passkey = ""
  · subst h
    refine ⟨by decide, fun hc => absurd rfl hc⟩
  · have hsc : (measureStrength passkey).score
        = (max 0 (min 4 (Int.fdiv (2 * strengthTally passkey.toList) 5))).toNat := by
      unfold measureStrength
      rw [if_neg h]
    have hb : (measureStrength passkey).score ≤ 4 := by
      rw [hsc]
      have h4 : max 0 (min 4 (Int.fdiv (2 * strengthTally passkey.toList) 5)) ≤ 4 :=
        max_le (by norm_num) (min_le_left _ _)
      omega
    refine ⟨hb, fun _ => ⟨by simpa [strengthLevels] using Nat.lt_succ_of_le hb, ?_⟩⟩
    have hpair : ((measureStrength passkey).label, (measureStrength passkey).color)
        = strengthLevels.getD (measureStrength passkey).score ("", "") := by
      unfold measureStrength
      rw [if_neg h]
    rw [hpair]
    exact getD_mem_strengthLevels _ (by omega)

/-- C9 witness: a concrete password whose level is one of the five. -/
theorem measureStrength_score_bounds_witness :
    (measureStrength "abc123").score < strengthLevels.length ∧
      ((measureStrength "abc123").label, (measureStrength "abc123").color)
        ∈ strengthLevels :=
  (measureStrength_score_bounds "abc123").2 (by decide)

/-- C10: every unread-count mutation done by the realtime and
connectivity layer (global-feed insert increment, entering a
conversation via the unread helper, tab becoming visible) keeps the
stored totalUnread equal to the sum of the per-conversation entries of
unreadCounts. -/
theorem unread_total_invariant (ctx : SyncCtx) (msg : Option Msg)
    (cid : String) (count : Nat) (activeConv userId : Option String)
    (s : UnreadState) (h : s.totalUnread = sumValues s.unreadCounts) :
    (updateUnreadCount cid count s).totalUnread
        = sumValues (updateUnreadCount cid count s).unreadCounts ∧
      (handleGlobalMessageInsert ctx msg s).totalUnread
        = sumValues (handleGlobalMessageInsert ctx msg s).unreadCounts ∧
      (visibilityMarkRead activeConv userId s).totalUnread
        = sumValues (visibilityMarkRead activeConv userId s).unreadCounts := by
  refine ⟨rfl, ?_, ?_⟩
  · cases msg with
    | none => exact h
    | some m =>
      simp only [handleGlobalMessageInsert]
      by_cases h1 : m.sender_id = ctx.userId
      · rw [if_pos h1]; exact h
      · rw [if_neg h1]
        by_cases h2 : some m.conversation_id ≠ ctx.activeConversationId ∨ ¬ctx.visible
        · rw [if_pos h2]
        · rw [if_neg h2]; exact h
  · cases activeConv with
    | none => exact h
    | some cid2 =>
      cases userId with
      | none => simp only [visibilityMarkRead]; exact h
      | some uid =>
        simp only [visibilityMarkRead]
        by_cases h2 : 0 < (mapLookup cid2 s.unreadCounts).getD 0
        · rw [if_pos h2]
        · rw [if_neg h2]; exact h

/-- C10 witness: a concrete global-feed insert into a fresh store. -/
theorem unread_total_invariant_witness :
    (handleGlobalMessageInsert ⟨"me", none, true⟩
        (some ⟨"m1", "c1", "peer", none⟩) ⟨[], 0⟩).totalUnread
      = sumValues (handleGlobalMessageInsert ⟨"me", none, true⟩
        (some ⟨"m1", "c1", "peer", none⟩) ⟨[], 0⟩).unreadCounts :=
  (unread_total_invariant ⟨"me", none, true⟩ (some ⟨"m1", "c1", "peer", none⟩)
    "c1" 0 none none ⟨[], 0⟩ rfl).2.1

end SecureChat
